import Mathlib

/-!
# MEXAsync: the two-stage MEX bridge of `mexasync.c`

A shallow embedding of `mexasync.c`: the two file-scope globals `ip` and
`gstatus`, the c-ares host callback `callback`, the event loop `wait_ares`,
the worker thread body `CaresThreadFunc` and the MEX entry point
`mexFunction`.

Conventions of the embedding.

* C strings are Lean strings (the characters before the terminator).
* `int` values are `Int`; no arithmetic is performed on them.
* A null or dangling pointer dereference is the fault `Stop.fault`.
* The c-ares library, `select` and `inet_ntop` are external: they are
  parameters of the definitions that call them.
* The library calls the registered callback synchronously from inside its
  own entry points; an entry point therefore returns the list of callback
  invocations it made, and the caller of the entry point applies `callback`
  to each of them in order.
* `for(;;)` is unrolled with a fuel argument; `Stop.fuel` means the loop had
  not returned when the fuel was used up.
-/

namespace MEXAsync

/-! ## Data model -/

/-- The two file-scope variables shared by the worker thread and the MEX
function: `static char ip[INET6_ADDRSTRLEN]` and `static int gstatus`. -/
structure Globals where
  ip : String
  gstatus : Int
deriving DecidableEq

/-- Static initialisation: `ip` is zero-filled (the empty C string) and
`gstatus = -1`. -/
def Globals.initial : Globals := { ip := "", gstatus := -1 }

/-- The source has no readiness flag. What a reader of the two globals can
tell is whether `gstatus` still has its initial value `-1`. -/
def ready (g : Globals) : Bool := g.gstatus != -1

/-- The fields of `struct hostent` that `callback` reads. `h_addr_list` is the
null-terminated array of addresses, each a list of octets. -/
structure hostent where
  h_addrtype : Int
  h_addr_list : List (List Nat)
deriving DecidableEq

/-- Why an execution produced no result. -/
inductive Stop where
  | fault
  | fuel
deriving DecidableEq

/-- The constant `AF_INET` of the socket headers. -/
def AF_INET : Int := 2

/-- The constant `ARES_SUCCESS` of `ares.h`. -/
def ARES_SUCCESS : Int := 0

/-- The constant `ARES_ENOTINITIALIZED` of `ares.h`. -/
def ARES_ENOTINITIALIZED : Int := 21

/-- The constant `ARES_LIB_INIT_ALL` of `ares.h`. -/
def ARES_LIB_INIT_ALL : Int := 1

/-- The type of `inet_ntop` with destination `ip` and size `sizeof(ip)`: address
family and octets to the text written into the buffer, or `none` when the call
fails and writes nothing. -/
abbrev Ntop := Int → List Nat → Option String

/-- The dotted-decimal `inet_ntop` for `AF_INET`; other families are not
supported by this instance. -/
def inet_ntop4 : Ntop := fun af src =>
  if af = AF_INET then
    match src with
    | [a, b, c, d] => some (s!"{a}.{b}.{c}.{d}")
    | _ => none
  else none

/-! ## The completion handler -/

/-- Line 35 of `callback`:
`inet_ntop(host->h_addrtype, host->h_addr_list[0], ip, sizeof(ip));`.
A null `host`, or a null first entry of `h_addr_list`, is dereferenced. -/
def callback_save_ip (inet_ntop : Ntop) (g : Globals) (host : Option hostent) :
    Except Stop Globals :=
  match host with
  | none => .error .fault
  | some h =>
    match h.h_addr_list with
    | [] => .error .fault
    | a :: _ =>
      match inet_ntop h.h_addrtype a with
      | some s => .ok { g with ip := s }
      | none => .ok g

/-- Line 36 of `callback`: `gstatus = status;`. -/
def callback_save_status (g : Globals) (status : Int) : Globals :=
  { g with gstatus := status }

/-- The c-ares host callback
`static void callback(void *arg, int status, int timeouts, struct hostent *host)`. -/
def callback (inet_ntop : Ntop) (g : Globals) (_arg : Nat) (status : Int) (_timeouts : Int)
    (host : Option hostent) : Except Stop Globals := do
  let g1 ← callback_save_ip inet_ntop g host
  pure (callback_save_status g1 status)

/-! ## The MEX entry point -/

/-- A MATLAB array as far as `mexFunction` inspects it: a char array with its
text, or an array of another class. -/
inductive mxArray where
  | char (s : String)
  | nonchar
deriving DecidableEq

/-- The function `mxIsChar`. -/
def mxIsChar : mxArray → Bool
  | .char _ => true
  | .nonchar => false

/-- The function `mxArrayToString`; only called on char arrays. -/
def mxArrayToString : mxArray → String
  | .char s => s
  | .nonchar => ""

/-- The function `strcmp` on the characters of two C strings. -/
def strcmpChars : List Char → List Char → Int
  | [], [] => 0
  | [], _ :: _ => -1
  | _ :: _, [] => 1
  | a :: as, b :: bs => if a = b then strcmpChars as bs else if a < b then -1 else 1

/-- The function `strcmp`. -/
def strcmp (a b : String) : Int := strcmpChars a.data b.data

/-- One call of `mexPrintf`: the format string and its single argument. -/
inductive Printed where
  | d (fmt : String) (v : Int)
  | s (fmt : String) (v : String)
deriving DecidableEq

/-- The process as the MEX function sees it: the two globals, the number of
threads started with `_beginthread(CaresThreadFunc, ...)` that have not ended,
and what has been printed to the MATLAB console. -/
structure Proc where
  g : Globals
  workers : Nat
  out : List Printed
deriving DecidableEq

/-- The process right after the MEX file is loaded. -/
def Proc.initial : Proc := { g := Globals.initial, workers := 0, out := [] }

/-- What one call of `mexFunction` leaves behind: the message of
`mexErrMsgTxt` when the call was aborted by it, and the process state. -/
structure MexResult where
  err : Option String
  proc : Proc
deriving DecidableEq

/-- The entry point
`void mexFunction (int nlhs, mxArray *plhs[], int nrhs, const mxArray *prhs[])`;
`nrhs` is the length of `prhs`, and `plhs` is never written. -/
def mexFunction (_nlhs : Int) (prhs : List mxArray) (p : Proc) : MexResult :=
  match prhs with
  | [a] =>
    if !mxIsChar a then { err := some "Input must be a string.", proc := p }
    else
      let cmd := mxArrayToString a
      if strcmp cmd "init" == 0 then
        { err := none, proc := { p with workers := p.workers + 1 } }
      else if strcmp cmd "fetch" == 0 then
        { err := none,
          proc := { p with out := p.out ++ [.d "status: %d\n" p.g.gstatus, .s "ip: %s\n" p.g.ip] } }
      else { err := some "Unknown command.", proc := p }
  | _ => { err := some "One input required.", proc := p }

/-! ## The external library and the worker thread -/

/-- One invocation of the registered host callback by the library: the
`status`, `timeouts` and `host` arguments it passes (`arg` is the null pointer
given to `ares_gethostbyname`). -/
structure CbCall where
  status : Int
  timeouts : Int
  host : Option hostent
deriving DecidableEq

/-- The two descriptor sets `read_fds` and `write_fds`. -/
structure FdSets where
  read_fds : List Nat
  write_fds : List Nat
deriving DecidableEq

/-- The result of `FD_ZERO` on both sets. -/
def FdSets.zero : FdSets := { read_fds := [], write_fds := [] }

/-- The c-ares entry points and `select`, over a state `W` that holds
everything outside the two globals: the channel, the library and the network.
Entry points with a return value give it first; entry points that may invoke
the registered callback give the invocations they made. -/
structure Ares (W : Type) where
  ares_library_init : Int → W → Int × W
  ares_init_options : Int → W → Int × W
  ares_gethostbyname : String → Int → W → List CbCall × W
  ares_fds : FdSets → W → (Int × FdSets) × W
  ares_timeout : W → Option Nat × W
  select : Int → FdSets → Option Nat → W → FdSets × W
  ares_process : FdSets → W → List CbCall × W
  ares_destroy : W → List CbCall × W
  ares_library_cleanup : W → W

/-- The library invoking `callback` (with `arg = NULL`) once per entry, in
order. -/
def dispatch (inet_ntop : Ntop) (g : Globals) : List CbCall → Except Stop Globals
  | [] => .ok g
  | c :: cs => do
    let g1 ← callback inet_ntop g 0 c.status c.timeouts c.host
    dispatch inet_ntop g1 cs

/-- The calls `wait_ares` makes, for the record of an execution. -/
inductive LibCall where
  | ares_fds
  | ares_timeout
  | select
  | ares_process
deriving DecidableEq

/-- The state of the worker thread inside `wait_ares`: the outside world, the
two globals and the record of the calls made so far. -/
structure Loop (W : Type) where
  w : W
  g : Globals
  calls : List LibCall

/-- The top of one iteration of `wait_ares`: both `FD_ZERO`s and
`nfds = ares_fds(channel, &read_fds, &write_fds)`. -/
def wait_ares_poll {W : Type} (L : Ares W) (s : Loop W) : (Int × FdSets) × Loop W :=
  let r := L.ares_fds FdSets.zero s.w
  (r.1, { s with w := r.2, calls := s.calls ++ [.ares_fds] })

/-- The rest of one iteration of `wait_ares` after `nfds` was found non-zero:
`ares_timeout`, `select` and `ares_process`, the latter running the callbacks
of the queries it completes. -/
def wait_ares_round {W : Type} (inet_ntop : Ntop) (L : Ares W) (nfds : Int) (fds : FdSets)
    (s : Loop W) : Except Stop (Loop W) :=
  let t := L.ares_timeout s.w
  let r := L.select nfds fds t.1 t.2
  let q := L.ares_process r.1 r.2
  match dispatch inet_ntop s.g q.1 with
  | .error e => .error e
  | .ok g1 =>
    .ok { w := q.2, g := g1, calls := s.calls ++ [.ares_timeout, .select, .ares_process] }

/-- The event loop `static void wait_ares(ares_channel channel)`, with the
`for(;;)` bounded by fuel. -/
def wait_ares {W : Type} (inet_ntop : Ntop) (L : Ares W) : Nat → Loop W → Except Stop (Loop W)
  | 0, _ => .error .fuel
  | fuel + 1, s =>
    let p := wait_ares_poll L s
    if p.1.1 = 0 then .ok p.2
    else
      match wait_ares_round inet_ntop L p.1.1 p.1.2 p.2 with
      | .error e => .error e
      | .ok s1 => wait_ares inet_ntop L fuel s1

/-- The worker thread body `void CaresThreadFunc(void *nop)`, from its first
statement to `_endthread()`. The return values of `ares_library_init` and
`ares_init_options` are discarded, as in the source. -/
def CaresThreadFunc {W : Type} (inet_ntop : Ntop) (L : Ares W) (fuel : Nat) (w : W)
    (g : Globals) : Except Stop (Loop W) :=
  let optmask : Int := 0
  let w1 := (L.ares_library_init ARES_LIB_INIT_ALL w).2
  let w2 := (L.ares_init_options optmask w1).2
  let sub := L.ares_gethostbyname "google.com" AF_INET w2
  match dispatch inet_ntop g sub.1 with
  | .error e => .error e
  | .ok g1 =>
    match wait_ares inet_ntop L fuel { w := sub.2, g := g1, calls := [] } with
    | .error e => .error e
    | .ok s =>
      let d := L.ares_destroy s.w
      match dispatch inet_ntop s.g d.1 with
      | .error e => .error e
      | .ok g2 => .ok { s with w := L.ares_library_cleanup d.2, g := g2 }

/-- The thread ending in `_endthread()`: the process after a worker that ran
`CaresThreadFunc` to the final globals `g` has ended. -/
def Proc.workerEnded (p : Proc) (g : Globals) : Proc :=
  { p with g := g, workers := p.workers - 1 }

/-! ## Test doubles of the library -/

/-- A library that resolves the one submitted request with the given outcome:
the request stays pending through `delay` rounds of the event loop and its
callback is invoked by `ares_process` in the round after them. The state is
the number of rounds left before the callback, or `none` when nothing is
pending. -/
def fakeLib (status : Int) (host : Option hostent) (delay : Nat) : Ares (Option Nat) where
  ares_library_init := fun _ w => (ARES_SUCCESS, w)
  ares_init_options := fun _ w => (ARES_SUCCESS, w)
  ares_gethostbyname := fun _ _ _ => ([], some delay)
  ares_fds := fun fds w =>
    match w with
    | none => ((0, fds), w)
    | some _ => ((4, { fds with read_fds := [3] }), w)
  ares_timeout := fun w => (some 5, w)
  select := fun _ fds _ w => (fds, w)
  ares_process := fun _ w =>
    match w with
    | none => ([], none)
    | some 0 => ([{ status := status, timeouts := 0, host := host }], none)
    | some (k + 1) => ([], some k)
  ares_destroy := fun w => ([], w)
  ares_library_cleanup := fun _ => none

/-- A library whose initialisation fails and which then does nothing: every
later entry point returns at once, no callback is invoked and no descriptor is
ever reported. -/
def failedInitLib : Ares Unit where
  ares_library_init := fun _ w => (ARES_ENOTINITIALIZED, w)
  ares_init_options := fun _ w => (ARES_ENOTINITIALIZED, w)
  ares_gethostbyname := fun _ _ w => ([], w)
  ares_fds := fun fds w => ((0, fds), w)
  ares_timeout := fun w => (none, w)
  select := fun _ fds _ w => (fds, w)
  ares_process := fun _ w => ([], w)
  ares_destroy := fun w => ([], w)
  ares_library_cleanup := fun w => w

/-- The calls of `n` full iterations of `wait_ares` after the poll that opens
the first of them: each iteration is `ares_timeout`, `select`, `ares_process`
and the poll of the next iteration. -/
def roundCalls : Nat → List LibCall
  | 0 => []
  | n + 1 => [.ares_timeout, .select, .ares_process, .ares_fds] ++ roundCalls n

/-- A worker started from process state `p` running `CaresThreadFunc` to its
end, and a fetch command after the thread has ended: what the fetch leaves on
the console. -/
def fetchAfterWorker {W : Type} (inet_ntop : Ntop) (L : Ares W) (fuel : Nat) (w : W)
    (nlhs : Int) (p : Proc) : Except Stop (List Printed) :=
  match CaresThreadFunc inet_ntop L fuel w p.g with
  | .error e => .error e
  | .ok st => .ok (mexFunction nlhs [.char "fetch"] (p.workerEnded st.g)).proc.out

/-- A library together with its own record of the calls it receives from the
event loop: each of `ares_fds`, `ares_timeout`, `select` and `ares_process`
does what the entry point of `L` does and adds its name to the record kept in
the second component of the world; the other entry points are those of `L`. -/
def recording {W : Type} (L : Ares W) : Ares (W × List LibCall) where
  ares_library_init := fun flags w =>
    ((L.ares_library_init flags w.1).1, ((L.ares_library_init flags w.1).2, w.2))
  ares_init_options := fun optmask w =>
    ((L.ares_init_options optmask w.1).1, ((L.ares_init_options optmask w.1).2, w.2))
  ares_gethostbyname := fun name family w =>
    ((L.ares_gethostbyname name family w.1).1, ((L.ares_gethostbyname name family w.1).2, w.2))
  ares_fds := fun fds w =>
    ((L.ares_fds fds w.1).1, ((L.ares_fds fds w.1).2, w.2 ++ [.ares_fds]))
  ares_timeout := fun w =>
    ((L.ares_timeout w.1).1, ((L.ares_timeout w.1).2, w.2 ++ [.ares_timeout]))
  select := fun nfds fds tvp w =>
    ((L.select nfds fds tvp w.1).1, ((L.select nfds fds tvp w.1).2, w.2 ++ [.select]))
  ares_process := fun fds w =>
    ((L.ares_process fds w.1).1, ((L.ares_process fds w.1).2, w.2 ++ [.ares_process]))
  ares_destroy := fun w => ((L.ares_destroy w.1).1, ((L.ares_destroy w.1).2, w.2))
  ares_library_cleanup := fun w => (L.ares_library_cleanup w.1, w.2)

/-- The library states at the first two polls of the event loop when it runs
against `fakeLib` with no delay: the request pending, then resolved. -/
def oneRoundWorlds : Nat → Option Nat
  | 0 => some 0
  | _ + 1 => none

/-- The slot at the first two polls of the event loop when the callback of the
first round brings `ARES_SUCCESS` and the address 1.2.3.4 to the initial
slot. -/
def oneRoundSlots : Nat → Globals
  | 0 => Globals.initial
  | _ + 1 => { ip := "1.2.3.4", gstatus := 0 }

/-! ## The fetch command racing the callback -/

/-- The two threads that touch the globals: the worker thread, inside
`callback`, and the MATLAB thread, inside the fetch branch of `mexFunction`. -/
inductive Tid where
  | worker
  | caller
deriving DecidableEq

/-- A state of the race: the globals, how many of the two statements of
`callback` (lines 35 and 36) the worker has executed, how many of the two
`mexPrintf` calls of the fetch branch (lines 99 and 100) the caller has
executed, and what the caller has printed. -/
structure Race where
  g : Globals
  cb_pc : Nat
  fetch_pc : Nat
  out : List Printed
deriving DecidableEq

/-- Both threads about to execute their first statement. -/
def Race.start (g : Globals) : Race := { g := g, cb_pc := 0, fetch_pc := 0, out := [] }

/-- One statement of one thread, executed without interruption; a thread past
its last statement does nothing. The globals are unsynchronised, so a step of
either thread can follow any step of the other. -/
def Race.step (inet_ntop : Ntop) (status : Int) (host : Option hostent) :
    Tid → Race → Except Stop Race
  | .worker, r =>
    match r.cb_pc with
    | 0 =>
      match callback_save_ip inet_ntop r.g host with
      | .error e => .error e
      | .ok g1 => .ok { r with g := g1, cb_pc := 1 }
    | 1 => .ok { r with g := callback_save_status r.g status, cb_pc := 2 }
    | _ => .ok r
  | .caller, r =>
    match r.fetch_pc with
    | 0 => .ok { r with out := r.out ++ [.d "status: %d\n" r.g.gstatus], fetch_pc := 1 }
    | 1 => .ok { r with out := r.out ++ [.s "ip: %s\n" r.g.ip], fetch_pc := 2 }
    | _ => .ok r

/-- The steps of a schedule, in order. -/
def Race.run (inet_ntop : Ntop) (status : Int) (host : Option hostent) :
    List Tid → Race → Except Stop Race
  | [], r => .ok r
  | t :: ts, r =>
    match Race.step inet_ntop status host t r with
    | .error e => .error e
    | .ok r1 => Race.run inet_ntop status host ts r1

/-- The process after one complete earlier run: `init` from the initial state,
then the worker running to its end against a library that resolves the request
with address 1.2.3.4 in its first round. -/
def afterFirstRun : Proc :=
  let p1 := (mexFunction 0 [.char "init"] Proc.initial).proc
  match CaresThreadFunc inet_ntop4 (fakeLib ARES_SUCCESS (some ⟨AF_INET, [[1, 2, 3, 4]]⟩) 0) 2
      none p1.g with
  | .ok s => p1.workerEnded s.g
  | .error _ => p1

/-- What holds in every state of a race that started from the slot `g0` with a
callback bringing `status` and an address of text `s`. -/
def RaceInv (g0 : Globals) (status : Int) (s : String) (r : Race) : Prop :=
  (r.cb_pc = 0 ∧ r.g = g0
      ∨ r.cb_pc = 1 ∧ r.g = { ip := s, gstatus := g0.gstatus }
      ∨ r.cb_pc = 2 ∧ r.g = { ip := s, gstatus := status })
    ∧ (r.fetch_pc = 0 ∧ r.out = []
      ∨ r.fetch_pc = 1
          ∧ (r.out = [.d "status: %d\n" g0.gstatus]
            ∨ r.out = [.d "status: %d\n" status] ∧ r.cb_pc = 2)
      ∨ r.fetch_pc = 2
          ∧ (r.out = [.d "status: %d\n" g0.gstatus, .s "ip: %s\n" g0.ip]
            ∨ r.out = [.d "status: %d\n" status, .s "ip: %s\n" s]
            ∨ r.out = [.d "status: %d\n" g0.gstatus, .s "ip: %s\n" s]))

/-! ## Basic facts -/

theorem strcmpChars_eq_zero (a b : List Char) : strcmpChars a b = 0 ↔ a = b := by
  induction a generalizing b with
  | nil => cases b <;> simp [strcmpChars]
  | cons x xs ih =>
    cases b with
    | nil => simp [strcmpChars]
    | cons y ys =>
      simp only [strcmpChars]
      by_cases hxy : x = y
      · simp [hxy, ih]
      · simp only [hxy, if_false, List.cons.injEq, false_and, iff_false]
        split <;> simp

theorem strcmp_eq_zero (a b : String) : strcmp a b = 0 ↔ a = b := by
  unfold strcmp
  rw [strcmpChars_eq_zero]
  constructor
  · intro h; exact String.ext h
  · intro h; rw [h]

theorem mexFunction_init (nlhs : Int) (p : Proc) :
    mexFunction nlhs [.char "init"] p
      = { err := none, proc := { p with workers := p.workers + 1 } } := by
  have h : (strcmp "init" "init" == 0) = true := by
    rw [beq_iff_eq, strcmp_eq_zero]
  simp [mexFunction, mxIsChar, mxArrayToString, h]

theorem mexFunction_fetch (nlhs : Int) (p : Proc) :
    mexFunction nlhs [.char "fetch"] p
      = { err := none,
          proc := { p with
            out := p.out ++ [.d "status: %d\n" p.g.gstatus, .s "ip: %s\n" p.g.ip] } } := by
  have h1 : (strcmp "fetch" "init" == 0) = false := by
    rw [beq_eq_false_iff_ne, ne_eq, strcmp_eq_zero]; decide
  have h2 : (strcmp "fetch" "fetch" == 0) = true := by
    rw [beq_iff_eq, strcmp_eq_zero]
  simp [mexFunction, mxIsChar, mxArrayToString, h1, h2]

theorem mexFunction_unknown (nlhs : Int) (cmd : String) (p : Proc)
    (h1 : cmd ≠ "init") (h2 : cmd ≠ "fetch") :
    mexFunction nlhs [.char cmd] p = { err := some "Unknown command.", proc := p } := by
  have e1 : (strcmp cmd "init" == 0) = false := by
    rw [beq_eq_false_iff_ne, ne_eq, strcmp_eq_zero]; exact h1
  have e2 : (strcmp cmd "fetch" == 0) = false := by
    rw [beq_eq_false_iff_ne, ne_eq, strcmp_eq_zero]; exact h2
  simp [mexFunction, mxIsChar, mxArrayToString, e1, e2]

theorem afterFirstRun_eq :
    afterFirstRun = { g := { ip := "1.2.3.4", gstatus := 0 }, workers := 0, out := [] } := by
  rfl

/-! ## The bridge controller: `mexFunction` -/

/-- C1: in the initial process state the fetch command reports the initial
`gstatus`, -1, and the empty `ip`, and changes nothing else; the slot is not
ready. -/
theorem fetch_before_any_start (nlhs : Int) :
    mexFunction nlhs [.char "fetch"] Proc.initial
        = { err := none,
            proc := { g := { ip := "", gstatus := -1 }, workers := 0,
                      out := [.d "status: %d\n" (-1), .s "ip: %s\n" ""] } }
      ∧ ready Proc.initial.g = false := by
  refine ⟨?_, by decide⟩
  rw [mexFunction_fetch]
  rfl

/-- C2, as stated, fails: with one worker running after a first `init`, a
second `init` is not rejected. It returns without any error and a second worker
is running. -/
theorem second_start_not_rejected :
    (mexFunction 0 [.char "init"] Proc.initial).proc.workers = 1
      ∧ (mexFunction 0 [.char "init"]
            (mexFunction 0 [.char "init"] Proc.initial).proc).err = none
      ∧ (mexFunction 0 [.char "init"]
            (mexFunction 0 [.char "init"] Proc.initial).proc).proc.workers = 2 := by
  simp only [mexFunction_init]
  decide

/-- C2, amended: in every state, also with workers running, `init` is accepted:
no error, exactly one more worker, and the slot and the console output are
untouched. -/
theorem start_always_accepted (nlhs : Int) (p : Proc) :
    (mexFunction nlhs [.char "init"] p).err = none
      ∧ (mexFunction nlhs [.char "init"] p).proc.workers = p.workers + 1
      ∧ (mexFunction nlhs [.char "init"] p).proc.g = p.g
      ∧ (mexFunction nlhs [.char "init"] p).proc.out = p.out := by
  rw [mexFunction_init]
  exact ⟨rfl, rfl, rfl, rfl⟩

/-- C3, as stated, fails: after one complete successful run, `init` is accepted
but the slot still holds that run's status 0 and address, it is still ready,
and a fetch right after `init` reports them. -/
theorem start_keeps_previous_run :
    (mexFunction 0 [.char "init"] afterFirstRun).err = none
      ∧ (mexFunction 0 [.char "init"] afterFirstRun).proc.g
          = { ip := "1.2.3.4", gstatus := ARES_SUCCESS }
      ∧ ready (mexFunction 0 [.char "init"] afterFirstRun).proc.g = true
      ∧ (mexFunction 0 [.char "fetch"]
            (mexFunction 0 [.char "init"] afterFirstRun).proc).proc.out
          = [.d "status: %d\n" 0, .s "ip: %s\n" "1.2.3.4"] := by
  simp only [mexFunction_init, mexFunction_fetch, afterFirstRun_eq]
  decide

/-- C3, amended: `init` leaves the slot exactly as it was, so a fetch issued
right after it, before any callback, reports the prior `gstatus` and `ip`. -/
theorem start_leaves_slot (nlhs nlhs2 : Int) (p : Proc) :
    (mexFunction nlhs [.char "init"] p).err = none
      ∧ (mexFunction nlhs [.char "init"] p).proc.g = p.g
      ∧ (mexFunction nlhs2 [.char "fetch"] (mexFunction nlhs [.char "init"] p).proc).proc.out
          = p.out ++ [.d "status: %d\n" p.g.gstatus, .s "ip: %s\n" p.g.ip] := by
  simp [mexFunction_init, mexFunction_fetch]

/-- C4: a command string other than "init" (the start command of the source)
and "fetch" ends in the error "Unknown command." with the process state, and so
the workers and the slot, unchanged; "init" and "fetch" end without any
error. -/
theorem unknown_command (nlhs : Int) (cmd : String) (p : Proc) :
    (cmd ≠ "init" → cmd ≠ "fetch" →
        mexFunction nlhs [.char cmd] p = { err := some "Unknown command.", proc := p })
      ∧ (cmd = "init" ∨ cmd = "fetch" → (mexFunction nlhs [.char cmd] p).err = none) := by
  refine ⟨fun h1 h2 => mexFunction_unknown nlhs cmd p h1 h2, ?_⟩
  rintro (h | h)
  · rw [h, mexFunction_init]
  · rw [h, mexFunction_fetch]

theorem unknown_command_witness :
    mexFunction 0 [.char "start"] afterFirstRun
        = { err := some "Unknown command.", proc := afterFirstRun }
      ∧ (mexFunction 0 [.char "fetch"] afterFirstRun).err = none :=
  ⟨(unknown_command 0 "start" afterFirstRun).1 (by decide) (by decide),
   (unknown_command 0 "fetch" afterFirstRun).2 (Or.inr rfl)⟩

/-! ## The completion handler: `callback` -/

/-- C5: called with any status and a host entry whose address list is not
empty, `callback` returns normally and the slot then holds that status
unchanged together with the text `inet_ntop` gives for the first address,
whatever addresses follow it; the slot is ready for every status other than
the initial value -1, which no library outcome uses. -/
theorem callback_stores_status_and_first_address (inet_ntop : Ntop) (g : Globals) (arg : Nat)
    (status timeouts af : Int) (a : List Nat) (rest : List (List Nat)) (s : String)
    (h : inet_ntop af a = some s) :
    callback inet_ntop g arg status timeouts (some { h_addrtype := af, h_addr_list := a :: rest })
        = .ok { ip := s, gstatus := status }
      ∧ (status ≠ -1 → ready { ip := s, gstatus := status } = true) := by
  refine ⟨?_, fun hs => ?_⟩
  · simp [callback, callback_save_ip, callback_save_status, h, bind, Except.bind, pure,
      Except.pure]
  · simpa [ready] using hs

theorem callback_stores_status_and_first_address_witness :
    callback inet_ntop4 Globals.initial 0 ARES_SUCCESS 0
        (some { h_addrtype := AF_INET, h_addr_list := [[1, 2, 3, 4], [5, 6, 7, 8]] })
        = .ok { ip := "1.2.3.4", gstatus := ARES_SUCCESS }
      ∧ (ARES_SUCCESS ≠ -1 → ready { ip := "1.2.3.4", gstatus := ARES_SUCCESS } = true) :=
  callback_stores_status_and_first_address inet_ntop4 Globals.initial 0 ARES_SUCCESS 0 AF_INET
    [1, 2, 3, 4] [[5, 6, 7, 8]] "1.2.3.4" (by decide)

/-- C6 on the code: called without a host entry (`host` null), as the library
does for a failed request, `callback` dereferences `host` before it stores the
status; the call faults for every failure code and every prior slot content,
and so does the worker run in which the library reports the failure. -/
theorem callback_without_host_faults (inet_ntop : Ntop) (g : Globals) (arg : Nat)
    (status timeouts : Int) :
    callback inet_ntop g arg status timeouts none = .error .fault
      ∧ CaresThreadFunc inet_ntop (fakeLib status none 0) 2 none g = .error .fault := by
  exact ⟨rfl, rfl⟩

/-! ## The event loop: `wait_ares` -/

/-- The loop along a run given by the library states `ws` and the slots `gs` at
the successive polls: if each of the first `n` polls reports a non-zero count
and is followed by `ares_timeout`, `select` on the polled sets with that
timeout and `ares_process` on the sets `select` returns, the callbacks of which
lead to the next slot, and poll `n + 1` reports zero, then the loop returns
from that poll when it has fuel for `n + 1` iterations and has not returned
with less. -/
theorem wait_ares_through {W : Type} (inet_ntop : Ntop) (L : Ares W) (n : Nat)
    (ws : Nat → W) (gs : Nat → Globals)
    (hround : ∀ k, k < n →
      (L.ares_fds FdSets.zero (ws k)).1.1 ≠ 0
      ∧ ws (k + 1)
          = (L.ares_process
              (L.select (L.ares_fds FdSets.zero (ws k)).1.1 (L.ares_fds FdSets.zero (ws k)).1.2
                (L.ares_timeout (L.ares_fds FdSets.zero (ws k)).2).1
                (L.ares_timeout (L.ares_fds FdSets.zero (ws k)).2).2).1
              (L.select (L.ares_fds FdSets.zero (ws k)).1.1 (L.ares_fds FdSets.zero (ws k)).1.2
                (L.ares_timeout (L.ares_fds FdSets.zero (ws k)).2).1
                (L.ares_timeout (L.ares_fds FdSets.zero (ws k)).2).2).2).2
      ∧ dispatch inet_ntop (gs k)
          (L.ares_process
              (L.select (L.ares_fds FdSets.zero (ws k)).1.1 (L.ares_fds FdSets.zero (ws k)).1.2
                (L.ares_timeout (L.ares_fds FdSets.zero (ws k)).2).1
                (L.ares_timeout (L.ares_fds FdSets.zero (ws k)).2).2).1
              (L.select (L.ares_fds FdSets.zero (ws k)).1.1 (L.ares_fds FdSets.zero (ws k)).1.2
                (L.ares_timeout (L.ares_fds FdSets.zero (ws k)).2).1
                (L.ares_timeout (L.ares_fds FdSets.zero (ws k)).2).2).2).1
          = .ok (gs (k + 1)))
    (hzero : (L.ares_fds FdSets.zero (ws n)).1.1 = 0) (fuel : Nat) (calls : List LibCall) :
    wait_ares inet_ntop L fuel { w := ws 0, g := gs 0, calls := calls }
      = if n < fuel then
          .ok { w := (L.ares_fds FdSets.zero (ws n)).2, g := gs n,
                calls := calls ++ [.ares_fds] ++ roundCalls n }
        else .error .fuel := by
  induction n generalizing ws gs fuel calls with
  | zero =>
    cases fuel with
    | zero => simp [wait_ares]
    | succ f => simp [wait_ares, wait_ares_poll, hzero, roundCalls]
  | succ m ih =>
    cases fuel with
    | zero => simp [wait_ares]
    | succ f =>
      obtain ⟨h1, h2, h3⟩ := hround 0 (Nat.succ_pos m)
      have ih1 := ih (fun k => ws (k + 1)) (fun k => gs (k + 1))
        (fun k hk => hround (k + 1) (Nat.succ_lt_succ hk)) hzero f
        (calls ++ [.ares_fds] ++ [.ares_timeout, .select, .ares_process])
      simp only [Nat.zero_add] at ih1 h2 h3
      simp only [wait_ares, wait_ares_poll, wait_ares_round, h1, if_false, h3, ← h2]
      rw [ih1]
      simp [roundCalls, Nat.succ_lt_succ_iff]

/-- A run of `L` is a run of `recording L` whose record grows by the name of
each entry point on the way. -/
theorem wait_ares_recording {W : Type} (inet_ntop : Ntop) (L : Ares W) (n : Nat)
    (ws : Nat → W) (gs : Nat → Globals)
    (hround : ∀ k, k < n →
      (L.ares_fds FdSets.zero (ws k)).1.1 ≠ 0
      ∧ ws (k + 1)
          = (L.ares_process
              (L.select (L.ares_fds FdSets.zero (ws k)).1.1 (L.ares_fds FdSets.zero (ws k)).1.2
                (L.ares_timeout (L.ares_fds FdSets.zero (ws k)).2).1
                (L.ares_timeout (L.ares_fds FdSets.zero (ws k)).2).2).1
              (L.select (L.ares_fds FdSets.zero (ws k)).1.1 (L.ares_fds FdSets.zero (ws k)).1.2
                (L.ares_timeout (L.ares_fds FdSets.zero (ws k)).2).1
                (L.ares_timeout (L.ares_fds FdSets.zero (ws k)).2).2).2).2
      ∧ dispatch inet_ntop (gs k)
          (L.ares_process
              (L.select (L.ares_fds FdSets.zero (ws k)).1.1 (L.ares_fds FdSets.zero (ws k)).1.2
                (L.ares_timeout (L.ares_fds FdSets.zero (ws k)).2).1
                (L.ares_timeout (L.ares_fds FdSets.zero (ws k)).2).2).1
              (L.select (L.ares_fds FdSets.zero (ws k)).1.1 (L.ares_fds FdSets.zero (ws k)).1.2
                (L.ares_timeout (L.ares_fds FdSets.zero (ws k)).2).1
                (L.ares_timeout (L.ares_fds FdSets.zero (ws k)).2).2).2).1
          = .ok (gs (k + 1)))
    (hzero : (L.ares_fds FdSets.zero (ws n)).1.1 = 0) (fuel : Nat)
    (received calls : List LibCall) :
    wait_ares inet_ntop (recording L) fuel { w := (ws 0, received), g := gs 0, calls := calls }
      = if n < fuel then
          .ok { w := ((L.ares_fds FdSets.zero (ws n)).2, received ++ [.ares_fds] ++ roundCalls n),
                g := gs n, calls := calls ++ [.ares_fds] ++ roundCalls n }
        else .error .fuel := by
  induction n generalizing ws gs fuel received calls with
  | zero =>
    cases fuel with
    | zero => simp [wait_ares]
    | succ f => simp [wait_ares, wait_ares_poll, recording, hzero, roundCalls]
  | succ m ih =>
    cases fuel with
    | zero => simp [wait_ares]
    | succ f =>
      obtain ⟨h1, h2, h3⟩ := hround 0 (Nat.succ_pos m)
      have ih1 := ih (fun k => ws (k + 1)) (fun k => gs (k + 1))
        (fun k hk => hround (k + 1) (Nat.succ_lt_succ hk)) hzero f
        (received ++ [.ares_fds] ++ [.ares_timeout] ++ [.select] ++ [.ares_process])
        (calls ++ [.ares_fds] ++ [.ares_timeout, .select, .ares_process])
      simp only [Nat.zero_add] at ih1 h2 h3
      simp only [wait_ares, wait_ares_poll, wait_ares_round, recording, h1, if_false, h3, ← h2]
      refine ih1.trans ?_
      simp [roundCalls, Nat.succ_lt_succ_iff]

theorem wait_ares_exit {W : Type} (inet_ntop : Ntop) (L : Ares W) (fuel : Nat) (s s1 : Loop W)
    (h : wait_ares inet_ntop L fuel s = .ok s1) :
    ∃ w, (L.ares_fds FdSets.zero w).1.1 = 0 ∧ s1.w = (L.ares_fds FdSets.zero w).2 := by
  induction fuel generalizing s with
  | zero => simp [wait_ares] at h
  | succ f ih =>
    simp only [wait_ares] at h
    split at h
    · next hz => exact ⟨s.w, hz, by cases h; rfl⟩
    · split at h
      · cases h
      · exact ih _ h

/-- C8: take any library `L` and any run, given by the library states `ws` and
the slots `gs` at the successive polls, in which each of the first `n` polls
`ares_fds` reports a non-zero count and is followed by `ares_timeout`, by
`select` on the polled count and sets with that timeout, and by `ares_process`
on the sets `select` returns, and in which poll `n + 1` reports zero. Then
`wait_ares` returns exactly when it is given `n + 1` iterations, not before, in
the library state that poll `n + 1` leaves; the library's own record of the
calls it received is the first poll followed by `n` rounds of `ares_timeout`,
`select`, `ares_process` and the next poll, with nothing after the poll that
reported zero; and whenever the loop returns at all, it returns from an
`ares_fds` that reported zero. -/
theorem wait_ares_exits_at_first_zero_count {W : Type} (inet_ntop : Ntop) (L : Ares W)
    (n fuel : Nat) (ws : Nat → W) (gs : Nat → Globals) (received calls : List LibCall)
    (hround : ∀ k, k < n →
      (L.ares_fds FdSets.zero (ws k)).1.1 ≠ 0
      ∧ ws (k + 1)
          = (L.ares_process
              (L.select (L.ares_fds FdSets.zero (ws k)).1.1 (L.ares_fds FdSets.zero (ws k)).1.2
                (L.ares_timeout (L.ares_fds FdSets.zero (ws k)).2).1
                (L.ares_timeout (L.ares_fds FdSets.zero (ws k)).2).2).1
              (L.select (L.ares_fds FdSets.zero (ws k)).1.1 (L.ares_fds FdSets.zero (ws k)).1.2
                (L.ares_timeout (L.ares_fds FdSets.zero (ws k)).2).1
                (L.ares_timeout (L.ares_fds FdSets.zero (ws k)).2).2).2).2
      ∧ dispatch inet_ntop (gs k)
          (L.ares_process
              (L.select (L.ares_fds FdSets.zero (ws k)).1.1 (L.ares_fds FdSets.zero (ws k)).1.2
                (L.ares_timeout (L.ares_fds FdSets.zero (ws k)).2).1
                (L.ares_timeout (L.ares_fds FdSets.zero (ws k)).2).2).1
              (L.select (L.ares_fds FdSets.zero (ws k)).1.1 (L.ares_fds FdSets.zero (ws k)).1.2
                (L.ares_timeout (L.ares_fds FdSets.zero (ws k)).2).1
                (L.ares_timeout (L.ares_fds FdSets.zero (ws k)).2).2).2).1
          = .ok (gs (k + 1)))
    (hzero : (L.ares_fds FdSets.zero (ws n)).1.1 = 0) :
    (n < fuel →
        wait_ares inet_ntop L fuel { w := ws 0, g := gs 0, calls := calls }
          = .ok { w := (L.ares_fds FdSets.zero (ws n)).2, g := gs n,
                  calls := calls ++ [.ares_fds] ++ roundCalls n })
      ∧ (n < fuel →
        wait_ares inet_ntop (recording L) fuel
            { w := (ws 0, received), g := gs 0, calls := calls }
          = .ok { w := ((L.ares_fds FdSets.zero (ws n)).2,
                        received ++ [.ares_fds] ++ roundCalls n),
                  g := gs n, calls := calls ++ [.ares_fds] ++ roundCalls n })
      ∧ (fuel ≤ n →
        wait_ares inet_ntop L fuel { w := ws 0, g := gs 0, calls := calls } = .error .fuel)
      ∧ (∀ s s1, wait_ares inet_ntop L fuel s = .ok s1 →
          ∃ w, (L.ares_fds FdSets.zero w).1.1 = 0 ∧ s1.w = (L.ares_fds FdSets.zero w).2) := by
  have h := wait_ares_through inet_ntop L n ws gs hround hzero fuel calls
  have hr := wait_ares_recording inet_ntop L n ws gs hround hzero fuel received calls
  refine ⟨fun hf => ?_, fun hf => ?_, fun hf => ?_,
    fun s s1 hs => wait_ares_exit inet_ntop L fuel s s1 hs⟩
  · rw [h, if_pos hf]
  · rw [hr, if_pos hf]
  · rw [h, if_neg (Nat.not_lt.mpr hf)]

theorem wait_ares_exits_at_first_zero_count_witness :
    wait_ares inet_ntop4 (recording (fakeLib ARES_SUCCESS (some ⟨AF_INET, [[1, 2, 3, 4]]⟩) 0)) 2
        { w := (some 0, []), g := Globals.initial, calls := [] }
        = .ok { w := (none, [.ares_fds, .ares_timeout, .select, .ares_process, .ares_fds]),
                g := { ip := "1.2.3.4", gstatus := 0 },
                calls := [.ares_fds, .ares_timeout, .select, .ares_process, .ares_fds] }
      ∧ wait_ares inet_ntop4 (fakeLib ARES_SUCCESS (some ⟨AF_INET, [[1, 2, 3, 4]]⟩) 0) 1
        { w := some 0, g := Globals.initial, calls := [] } = .error .fuel := by
  exact ⟨(wait_ares_exits_at_first_zero_count inet_ntop4
            (fakeLib ARES_SUCCESS (some ⟨AF_INET, [[1, 2, 3, 4]]⟩) 0) 1 2 oneRoundWorlds
            oneRoundSlots [] []
            (fun k hk => by
              obtain rfl : k = 0 := by omega
              exact ⟨by decide, rfl, rfl⟩) rfl).2.1 (by decide),
         (wait_ares_exits_at_first_zero_count inet_ntop4
            (fakeLib ARES_SUCCESS (some ⟨AF_INET, [[1, 2, 3, 4]]⟩) 0) 1 1 oneRoundWorlds
            oneRoundSlots [] []
            (fun k hk => by
              obtain rfl : k = 0 := by omega
              exact ⟨by decide, rfl, rfl⟩) rfl).2.2.1 (by decide)⟩

/-! ## The worker: `CaresThreadFunc` -/

theorem dispatch_nil (inet_ntop : Ntop) (g : Globals) : dispatch inet_ntop g [] = .ok g := rfl

theorem dispatch_one (inet_ntop : Ntop) (g : Globals) (status timeouts af : Int)
    (a : List Nat) (rest : List (List Nat)) (s : String) (h : inet_ntop af a = some s) :
    dispatch inet_ntop g
        [{ status := status, timeouts := timeouts,
           host := some { h_addrtype := af, h_addr_list := a :: rest } }]
      = .ok { ip := s, gstatus := status } := by
  simp [dispatch, callback, callback_save_ip, callback_save_status, h, bind, Except.bind, pure,
    Except.pure]

/-- The event loop against `fakeLib` with `k` rounds left before the callback:
given fuel for `k + 2` iterations it returns with the slot holding the status
and the text of the first address. -/
theorem wait_ares_fakeLib (inet_ntop : Ntop) (status af : Int) (a : List Nat)
    (rest : List (List Nat)) (s : String) (h : inet_ntop af a = some s) (delay k fuel : Nat)
    (g : Globals) (calls : List LibCall) (hfuel : k + 1 < fuel) :
    ∃ calls1,
      wait_ares inet_ntop
          (fakeLib status (some { h_addrtype := af, h_addr_list := a :: rest }) delay) fuel
          { w := some k, g := g, calls := calls }
        = .ok { w := none, g := { ip := s, gstatus := status }, calls := calls1 } := by
  induction k generalizing fuel g calls with
  | zero =>
    obtain ⟨f, rfl⟩ : ∃ f, fuel = f + 2 := ⟨fuel - 2, by omega⟩
    refine ⟨calls ++ [.ares_fds] ++ [.ares_timeout, .select, .ares_process] ++ [.ares_fds], ?_⟩
    simp [wait_ares, wait_ares_poll, wait_ares_round, fakeLib,
      dispatch_one inet_ntop _ status 0 af a rest s h]
  | succ m ih =>
    obtain ⟨f, rfl⟩ : ∃ f, fuel = f + 1 := ⟨fuel - 1, by omega⟩
    obtain ⟨calls1, h1⟩ := ih f g
      (calls ++ [.ares_fds] ++ [.ares_timeout, .select, .ares_process]) (by omega)
    refine ⟨calls1, ?_⟩
    rw [← h1]
    simp [wait_ares, wait_ares_poll, wait_ares_round, fakeLib, dispatch_nil]

/-- C7: for every address `a` with text `s`, the worker run against a library
that resolves the one submitted request successfully with `a`, after any number
of idle rounds, comes to its end given enough iterations, and a fetch after it
reports the status `ARES_SUCCESS` and the payload `s`. -/
theorem worker_success_then_fetch (inet_ntop : Ntop) (a : List Nat)
    (rest : List (List Nat)) (s : String) (delay fuel : Nat) (w : Option Nat) (nlhs : Int) (p : Proc)
    (h : inet_ntop AF_INET a = some s) (hfuel : delay + 1 < fuel) :
    fetchAfterWorker inet_ntop
        (fakeLib ARES_SUCCESS (some { h_addrtype := AF_INET, h_addr_list := a :: rest }) delay)
        fuel w nlhs p
      = .ok (p.out ++ [.d "status: %d\n" ARES_SUCCESS, .s "ip: %s\n" s]) := by
  obtain ⟨calls1, h1⟩ := wait_ares_fakeLib inet_ntop ARES_SUCCESS AF_INET a rest s h delay delay
    fuel p.g [] hfuel
  have h2 : CaresThreadFunc inet_ntop
      (fakeLib ARES_SUCCESS (some { h_addrtype := AF_INET, h_addr_list := a :: rest }) delay) fuel w p.g
      = .ok { w := none, g := { ip := s, gstatus := ARES_SUCCESS }, calls := calls1 } := by
    simp only [CaresThreadFunc]
    have e : (fakeLib ARES_SUCCESS (some { h_addrtype := AF_INET, h_addr_list := a :: rest })
        delay).ares_gethostbyname "google.com" AF_INET
          ((fakeLib ARES_SUCCESS (some { h_addrtype := AF_INET, h_addr_list := a :: rest })
            delay).ares_init_options 0
            ((fakeLib ARES_SUCCESS (some { h_addrtype := AF_INET, h_addr_list := a :: rest })
              delay).ares_library_init ARES_LIB_INIT_ALL w).2).2 = ([], some delay) := rfl
    rw [e]
    simp only [dispatch_nil, h1]
    rfl
  simp [fetchAfterWorker, h2, mexFunction_fetch, Proc.workerEnded]

theorem worker_success_then_fetch_witness :
    fetchAfterWorker inet_ntop4
        (fakeLib ARES_SUCCESS (some { h_addrtype := AF_INET, h_addr_list := [[1, 2, 3, 4]] }) 3)
        5 none 0 (mexFunction 0 [.char "init"] Proc.initial).proc
      = .ok ([] ++ [.d "status: %d\n" ARES_SUCCESS, .s "ip: %s\n" "1.2.3.4"]) :=
  worker_success_then_fetch inet_ntop4 [1, 2, 3, 4] [] "1.2.3.4" 3 5 none 0
    (mexFunction 0 [.char "init"] Proc.initial).proc (by decide) (by decide)

/-- C9, as stated, fails: against a library whose initialisation and context
creation fail and which then does nothing, the worker runs to its end and the
slot still holds the initial status -1: no other status was written. -/
theorem failed_init_leaves_sentinel :
    (failedInitLib.ares_library_init ARES_LIB_INIT_ALL ()).1 ≠ ARES_SUCCESS
      ∧ (failedInitLib.ares_init_options 0 ()).1 ≠ ARES_SUCCESS
      ∧ (CaresThreadFunc inet_ntop4 failedInitLib 1 () Globals.initial).map (fun st => st.g)
          = .ok { ip := "", gstatus := -1 }
      ∧ fetchAfterWorker inet_ntop4 failedInitLib 1 () 0
          (mexFunction 0 [.char "init"] Proc.initial).proc
          = .ok [.d "status: %d\n" (-1), .s "ip: %s\n" ""] := by
  refine ⟨by decide, by decide, rfl, rfl⟩

/-- C9, amended: whatever `ares_library_init` and `ares_init_options` return,
if the library then invokes no callback from `ares_gethostbyname` or
`ares_destroy` and reports no descriptors at the first poll, the worker runs to
its end and the slot is exactly what it was before. -/
theorem worker_without_callback_leaves_slot {W : Type} (inet_ntop : Ntop) (L : Ares W)
    (fuel : Nat) (w : W) (g : Globals)
    (hsub : (L.ares_gethostbyname "google.com" AF_INET
        (L.ares_init_options 0 (L.ares_library_init ARES_LIB_INIT_ALL w).2).2).1 = [])
    (hfds : (L.ares_fds FdSets.zero (L.ares_gethostbyname "google.com" AF_INET
        (L.ares_init_options 0 (L.ares_library_init ARES_LIB_INIT_ALL w).2).2).2).1.1 = 0)
    (hdes : (L.ares_destroy (L.ares_fds FdSets.zero (L.ares_gethostbyname "google.com" AF_INET
        (L.ares_init_options 0 (L.ares_library_init ARES_LIB_INIT_ALL w).2).2).2).2).1 = []) :
    (CaresThreadFunc inet_ntop L (fuel + 1) w g).map (fun st => st.g) = .ok g := by
  simp [CaresThreadFunc, hsub, dispatch_nil, wait_ares, wait_ares_poll, hfds, hdes, Except.map]

theorem worker_without_callback_leaves_slot_witness :
    (CaresThreadFunc inet_ntop4 failedInitLib (0 + 1) () { ip := "1.2.3.4", gstatus := 0 }).map
        (fun st => st.g) = .ok { ip := "1.2.3.4", gstatus := 0 } :=
  worker_without_callback_leaves_slot inet_ntop4 failedInitLib 0 ()
    { ip := "1.2.3.4", gstatus := 0 } rfl rfl rfl

/-! ## Fetch racing the callback -/

/-- The worker's two steps alone are `callback`. -/
theorem race_worker_alone (inet_ntop : Ntop) (status timeouts : Int) (host : Option hostent)
    (g : Globals) (arg : Nat) :
    (Race.run inet_ntop status host [.worker, .worker] (Race.start g)).map (fun r => r.g)
      = callback inet_ntop g arg status timeouts host := by
  simp only [Race.run, Race.step, Race.start, callback, bind, Except.bind, pure, Except.pure]
  cases callback_save_ip inet_ntop g host <;> rfl

/-- The caller's two steps alone print what the fetch command prints. -/
theorem race_caller_alone (inet_ntop : Ntop) (status : Int) (host : Option hostent)
    (nlhs : Int) (p : Proc) :
    (Race.run inet_ntop status host [.caller, .caller] (Race.start p.g)).map
        (fun r => p.out ++ r.out)
      = .ok (mexFunction nlhs [.char "fetch"] p).proc.out := by
  simp [Race.run, Race.step, Race.start, mexFunction_fetch, Except.map]

theorem raceInv_step (inet_ntop : Ntop) (g0 : Globals) (status af : Int) (a : List Nat)
    (rest : List (List Nat)) (s : String) (h : inet_ntop af a = some s) (t : Tid) (r r1 : Race)
    (hinv : RaceInv g0 status s r)
    (hstep : Race.step inet_ntop status (some { h_addrtype := af, h_addr_list := a :: rest }) t r
      = .ok r1) :
    RaceInv g0 status s r1 := by
  obtain ⟨g, cpc, fpc, out⟩ := r
  obtain ⟨hc, hf⟩ := hinv
  simp only at hc hf
  cases t with
  | worker =>
    rcases hc with ⟨rfl, rfl⟩ | ⟨rfl, rfl⟩ | ⟨rfl, rfl⟩
    · simp only [Race.step, callback_save_ip, h] at hstep
      cases hstep
      refine ⟨Or.inr (Or.inl ⟨rfl, rfl⟩), ?_⟩
      rcases hf with hf | ⟨h1, hf | ⟨_, hf⟩⟩ | hf
      · exact Or.inl hf
      · exact Or.inr (Or.inl ⟨h1, Or.inl hf⟩)
      · cases hf
      · exact Or.inr (Or.inr hf)
    · simp only [Race.step, callback_save_status] at hstep
      cases hstep
      refine ⟨Or.inr (Or.inr ⟨rfl, rfl⟩), ?_⟩
      rcases hf with hf | ⟨h1, hf | ⟨_, hf⟩⟩ | hf
      · exact Or.inl hf
      · exact Or.inr (Or.inl ⟨h1, Or.inl hf⟩)
      · cases hf
      · exact Or.inr (Or.inr hf)
    · simp only [Race.step] at hstep
      cases hstep
      exact ⟨Or.inr (Or.inr ⟨rfl, rfl⟩), hf⟩
  | caller =>
    rcases hf with ⟨rfl, rfl⟩ | ⟨rfl, hf⟩ | ⟨rfl, hf⟩
    · simp only [Race.step] at hstep
      cases hstep
      refine ⟨hc, Or.inr (Or.inl ⟨rfl, ?_⟩)⟩
      rcases hc with ⟨_, rfl⟩ | ⟨_, rfl⟩ | ⟨h2, rfl⟩
      · exact Or.inl rfl
      · exact Or.inl rfl
      · exact Or.inr ⟨rfl, h2⟩
    · simp only [Race.step] at hstep
      cases hstep
      refine ⟨hc, Or.inr (Or.inr ⟨rfl, ?_⟩)⟩
      rcases hf with rfl | ⟨rfl, h2⟩
      · rcases hc with ⟨_, rfl⟩ | ⟨_, rfl⟩ | ⟨_, rfl⟩
        · exact Or.inl rfl
        · exact Or.inr (Or.inr rfl)
        · exact Or.inr (Or.inr rfl)
      · rcases hc with ⟨h3, _⟩ | ⟨h3, _⟩ | ⟨_, rfl⟩
        · omega
        · omega
        · exact Or.inr (Or.inl rfl)
    · simp only [Race.step] at hstep
      cases hstep
      exact ⟨hc, Or.inr (Or.inr ⟨rfl, hf⟩)⟩

theorem raceInv_run (inet_ntop : Ntop) (g0 : Globals) (status af : Int) (a : List Nat)
    (rest : List (List Nat)) (s : String) (h : inet_ntop af a = some s) (sched : List Tid)
    (r r1 : Race) (hinv : RaceInv g0 status s r)
    (hrun : Race.run inet_ntop status (some { h_addrtype := af, h_addr_list := a :: rest })
      sched r = .ok r1) :
    RaceInv g0 status s r1 := by
  induction sched generalizing r with
  | nil =>
    simp only [Race.run] at hrun
    cases hrun
    exact hinv
  | cons t ts ih =>
    simp only [Race.run] at hrun
    split at hrun
    · cases hrun
    · next r2 h2 =>
      exact ih r2 (raceInv_step inet_ntop g0 status af a rest s h t r r2 hinv h2) hrun

/-- C10, as stated, fails: the fetch prints the status before the callback
runs and the address after it, and so reports the old status -1 with the new
payload 1.2.3.4, which is neither what a fetch before the callback reports nor
what a fetch after it reports. -/
theorem fetch_sees_old_status_new_payload :
    (Race.run inet_ntop4 ARES_SUCCESS (some ⟨AF_INET, [[1, 2, 3, 4]]⟩)
        [.caller, .worker, .worker, .caller] (Race.start Globals.initial)).map (fun r => r.out)
        = .ok [.d "status: %d\n" (-1), .s "ip: %s\n" "1.2.3.4"]
      ∧ (Race.run inet_ntop4 ARES_SUCCESS (some ⟨AF_INET, [[1, 2, 3, 4]]⟩)
        [.caller, .caller, .worker, .worker] (Race.start Globals.initial)).map (fun r => r.out)
        = .ok [.d "status: %d\n" (-1), .s "ip: %s\n" ""]
      ∧ (Race.run inet_ntop4 ARES_SUCCESS (some ⟨AF_INET, [[1, 2, 3, 4]]⟩)
        [.worker, .worker, .caller, .caller] (Race.start Globals.initial)).map (fun r => r.out)
        = .ok [.d "status: %d\n" 0, .s "ip: %s\n" "1.2.3.4"] := by
  exact ⟨rfl, rfl, rfl⟩

/-- C10, amended: with each statement of `callback` and of the fetch branch
taken as one step, every interleaving of a fetch with a callback that brings a
status and a non-empty address list lets the fetch report one of three pairs:
the old status with the old payload, the new status with the new payload, or
the old status with the new payload. -/
theorem fetch_snapshot_in_race (inet_ntop : Ntop) (g0 : Globals) (status af : Int)
    (a : List Nat) (rest : List (List Nat)) (s : String) (sched : List Tid) (r : Race)
    (h : inet_ntop af a = some s)
    (hrun : Race.run inet_ntop status (some { h_addrtype := af, h_addr_list := a :: rest })
      sched (Race.start g0) = .ok r)
    (hdone : r.fetch_pc = 2) :
    r.out = [.d "status: %d\n" g0.gstatus, .s "ip: %s\n" g0.ip]
      ∨ r.out = [.d "status: %d\n" status, .s "ip: %s\n" s]
      ∨ r.out = [.d "status: %d\n" g0.gstatus, .s "ip: %s\n" s] := by
  have h0 : RaceInv g0 status s (Race.start g0) :=
    ⟨Or.inl ⟨rfl, rfl⟩, Or.inl ⟨rfl, rfl⟩⟩
  obtain ⟨_, hf⟩ := raceInv_run inet_ntop g0 status af a rest s h sched _ r h0 hrun
  rcases hf with ⟨h1, _⟩ | ⟨h1, _⟩ | ⟨_, hf⟩
  · omega
  · omega
  · exact hf

theorem fetch_snapshot_in_race_witness :
    ([.d "status: %d\n" (-1), .s "ip: %s\n" "1.2.3.4"] : List Printed)
        = [.d "status: %d\n" (-1), .s "ip: %s\n" ""]
      ∨ ([.d "status: %d\n" (-1), .s "ip: %s\n" "1.2.3.4"] : List Printed)
        = [.d "status: %d\n" ARES_SUCCESS, .s "ip: %s\n" "1.2.3.4"]
      ∨ ([.d "status: %d\n" (-1), .s "ip: %s\n" "1.2.3.4"] : List Printed)
        = [.d "status: %d\n" (-1), .s "ip: %s\n" "1.2.3.4"] :=
  fetch_snapshot_in_race inet_ntop4 Globals.initial ARES_SUCCESS AF_INET [1, 2, 3, 4] [] "1.2.3.4"
    [.caller, .worker, .worker, .caller]
    { g := { ip := "1.2.3.4", gstatus := 0 }, cb_pc := 2, fetch_pc := 2,
      out := [.d "status: %d\n" (-1), .s "ip: %s\n" "1.2.3.4"] }
    (by decide) rfl rfl

end MEXAsync
